import Mathlib

/-!
Verification development for the pm2_manager repository's monitoring and
log-streaming core.  Each definition is a shallow embedding of a function of
the TypeScript source; the source file and line ranges are named in the doc
comments.  JavaScript values that may be `null`/`undefined` are modelled as
`Option`, thrown exceptions as `Except String`, and timestamps as integer
milliseconds.
-/

namespace Pm2Manager

/-! ## Supervisor snapshots and config rows -/

/-- A PM2 process snapshot as produced by `pm2Service.listProcesses` /
`describeProcess` (src/unnamed/part_002).  Only the fields consumed by the
merge and by the log-stream handler are modelled; the remaining fields
(`pid`, `uptime`, `restarts`, ...) are payload carried by the object spread
and never inspected by the code under verification. -/
structure PM2ProcessInfo where
  pm_id : Nat
  name : String
  status : String
  cpu : Int
  memory : Int
  pm_out_log_path : Option (List Char) := none
  pm_err_log_path : Option (List Char) := none
deriving DecidableEq

/-- A group-assignment row: `pm2Id → groupId` (nullable).  This is the shape
shared by the durable `taskConfigs` rows (only these two fields are read by
the merge) and by `LocalTaskConfig` of src/server/localStorage.ts. -/
structure TaskConfigRow where
  pm2Id : Nat
  groupId : Option Nat
deriving DecidableEq

/-- One entry of the merged per-process view: the snapshot plus the resolved
group id. -/
structure MergedProcess where
  proc : PM2ProcessInfo
  groupId : Option Nat
deriving DecidableEq

/-- The snapshot merger of `fetchAndSendProcesses` (src/unnamed/part_003,
lines 184–191) and `processes.list` (src/unnamed/part_002, lines 361–369):

    processes.map(proc => {
      const localConfig = localConfigs.find(c => c.pm2Id === proc.pm_id);
      const dbConfig = dbConfigs.find(c => c.pm2Id === proc.pm_id);
      return { ...proc, groupId: localConfig?.groupId ?? dbConfig?.groupId ?? null };
    })

JS optional chaining makes `localConfig?.groupId` nullish both when no local
config exists and when one exists with `groupId: null`; the `??` chain then
falls through.  That two-level collapse is `Option.bind` followed by a
null-coalescing match. -/
def mergeProcessesWithGroups (processes : List PM2ProcessInfo)
    (dbConfigs localConfigs : List TaskConfigRow) : List MergedProcess :=
  processes.map fun proc =>
    let localConfig := localConfigs.find? fun c => c.pm2Id == proc.pm_id
    let dbConfig := dbConfigs.find? fun c => c.pm2Id == proc.pm_id
    { proc := proc
      groupId :=
        match localConfig.bind TaskConfigRow.groupId with
        | some g => some g
        | none =>
          match dbConfig.bind TaskConfigRow.groupId with
          | some g => some g
          | none => none }

/-- The group id predicted by claim C1's wording: the Fallback Store's stored
value whenever a fallback assignment for the process id is present (even when
that stored value is null), else the Config Store's stored value when an
assignment is present, else null.  Written from the claim, to be compared
with `mergeProcessesWithGroups`. -/
def claimGroupId (localConfigs dbConfigs : List TaskConfigRow) (pm2Id : Nat) : Option Nat :=
  match localConfigs.find? fun c => c.pm2Id == pm2Id with
  | some c => c.groupId
  | none =>
    match dbConfigs.find? fun c => c.pm2Id == pm2Id with
    | some c => c.groupId
    | none => none

/-- The group id the code actually resolves: the first non-null value among
the Fallback Store's assignment and the Config Store's assignment, else
null. -/
def resolvedGroupId (localConfigs dbConfigs : List TaskConfigRow) (pm2Id : Nat) : Option Nat :=
  match localConfigs.find? fun c => c.pm2Id == pm2Id with
  | some ⟨_, some g⟩ => some g
  | _ =>
    match dbConfigs.find? fun c => c.pm2Id == pm2Id with
    | some ⟨_, some g⟩ => some g
    | _ => none

/-! ## Bounded sliding window of the log tailer -/

/-- One step of the bounded window from the `logs:stream` handler
(src/unnamed/part_003, lines 268–274):
`lines.push(line); if (lines.length > maxLines) lines.shift();`. -/
def tailWindowStep (maxLines : Nat) (lines : List String) (line : String) : List String :=
  let pushed := lines ++ [line]
  if maxLines < pushed.length then pushed.tail else pushed

/-- Reading a whole file line by line through the bounded window, starting
from the empty buffer — the historical-tail loop of the `logs:stream`
handler. -/
def tailWindow (maxLines : Nat) (fileLines : List String) : List String :=
  fileLines.foldl (tailWindowStep maxLines) []

/-! ## Stream-kind inference (`logPath.includes('out')`) -/

/-- Whether the first list occurs at the start of the second (character
lists). -/
def listStartsWith : List Char → List Char → Bool
  | [], _ => true
  | _ :: _, [] => false
  | a :: as, b :: bs => a == b && listStartsWith as bs

/-- Whether the first list occurs as a contiguous substring of the second —
the model of JavaScript `String.prototype.includes`. -/
def containsSub (needle : List Char) : List Char → Bool
  | [] => listStartsWith needle []
  | c :: cs => listStartsWith needle (c :: cs) || containsSub needle cs

/-- The characters of the JS literal `'out'`. -/
def outChars : List Char := ['o', 'u', 't']

/-- Stream kinds recorded on emitted and persisted log lines. -/
inductive LogKind
  | stdout
  | stderr
deriving DecidableEq

/-- The stream kind the `logs:stream` handler attaches to every historical
line of a file: `logPath.includes('out') ? 'stdout' : 'stderr'`
(src/unnamed/part_003, lines 282 and 290). -/
def inferKind (logPath : List Char) : LogKind :=
  if containsSub outChars logPath then .stdout else .stderr

/-- The kind requested by a `logs:stream` command. -/
inductive LogStreamType
  | stdout
  | stderr
  | both
deriving DecidableEq

/-- Path selection of the `logs:stream` handler (src/unnamed/part_003, lines
245–251): the stdout file path when requested and present, then the stderr
file path when requested and present. -/
def selectLogPaths (t : LogStreamType) (p : PM2ProcessInfo) : List (List Char) :=
  (if t = .stdout ∨ t = .both then p.pm_out_log_path.toList else [])
    ++ (if t = .stderr ∨ t = .both then p.pm_err_log_path.toList else [])

/-- A `logs:data` message (also the shape persisted via `insertLogEntry`). -/
structure LogDataOut where
  pm2Id : Nat
  type : LogKind
  content : String
deriving DecidableEq

/-- Historical replay of one selected log file (src/unnamed/part_003, lines
256–293): the lines retained by the bounded window are emitted in file order,
each tagged — and persisted — with the kind inferred from the file's path. -/
def replayFile (pm2Id : Nat) (logPath : List Char) (fileLines : List String) :
    List LogDataOut :=
  (tailWindow 100 fileLines).map fun line =>
    { pm2Id := pm2Id, type := inferKind logPath, content := line }

/-- The whole historical phase of a `logs:stream` request: the selected files
are replayed one after the other. -/
def historicalReplay (pm2Id : Nat) (t : LogStreamType) (p : PM2ProcessInfo)
    (fileContents : List Char → List String) : List LogDataOut :=
  (selectLogPaths t p).flatMap fun logPath => replayFile pm2Id logPath (fileContents logPath)

/-! ## Batch operations over process ids -/

/-- Result record of `pm2Service.batchOperation` (src/unnamed/part_002,
lines 215–248). -/
structure BatchResult where
  success : Nat
  failed : Nat
  errors : List String
deriving DecidableEq

/-- The operations accepted by `batchOperation`'s type signature. -/
inductive BatchOp
  | start
  | stop
  | restart
  | delete
deriving DecidableEq

/-- The body of `batchOperation`'s `try` block for one id: `stop`, `restart`
and `delete` dispatch to the corresponding supervisor call (abstracted as
`outcome`, which returns the call's result or the message of the error it
threw); any other operation hits the `default` case and throws. -/
def batchTry (outcome : Nat → Except String Unit) (operation : BatchOp) (id : Nat) :
    Except String Unit :=
  match operation with
  | .stop => outcome id
  | .restart => outcome id
  | .delete => outcome id
  | .start => .error "Unsupported operation: start"

/-- One iteration of `batchOperation`'s loop: on success increment `success`,
on a thrown error increment `failed` and push
`Process <id>: <error message>`. -/
def batchStep (outcome : Nat → Except String Unit) (operation : BatchOp)
    (results : BatchResult) (id : Nat) : BatchResult :=
  match batchTry outcome operation id with
  | .ok _ => { results with success := results.success + 1 }
  | .error e =>
    { results with
      failed := results.failed + 1
      errors := results.errors ++ ["Process " ++ toString id ++ ": " ++ e] }

/-- `pm2Service.batchOperation` (src/unnamed/part_002, lines 215–248): every
id is processed in order starting from the zero tally. -/
def batchOperation (processIds : List Nat) (operation : BatchOp)
    (outcome : Nat → Except String Unit) : BatchResult :=
  processIds.foldl (batchStep outcome operation) ⟨0, 0, []⟩

/-! ## Durable store (src/unnamed/part_001)

Every function of src/unnamed/part_001 first awaits `getDb()`, which yields
the connection or `null`; the embedding passes that result explicitly as an
`Option DbState`.  A `throw new Error(msg)` is `Except.error msg`; functions
that cannot throw in the modelled paths still return `Except` so that
"surfaces an error to the caller" is the same notion everywhere. -/

/-- A `task_groups` row (drizzle/schema.ts).  The `createdAt`/`updatedAt`
columns are database-managed timestamps never read by the code under
verification and are omitted. -/
structure TaskGroup where
  id : Nat
  name : String
  description : Option String
  color : Option String
deriving DecidableEq

/-- The insertable fields of a task group as validated by the router
(`groups.create`): name required, description and color optional. -/
structure InsertTaskGroup where
  name : String
  description : Option String := none
  color : Option String := none
deriving DecidableEq

/-- The partial update accepted by `updateTaskGroup` (`data` after dropping
`id`): any subset of name, description, color. -/
structure UpdateTaskGroup where
  name : Option String := none
  description : Option String := none
  color : Option String := none
deriving DecidableEq

/-- A `performance_metrics` row; `timestamp` is integer milliseconds. -/
structure MetricRow where
  pm2Id : Nat
  cpu : Int
  memory : Int
  timestamp : Int
deriving DecidableEq

/-- A `log_entries` row; `timestamp` is integer milliseconds. -/
structure LogRow where
  pm2Id : Nat
  type : LogKind
  content : String
  timestamp : Int
deriving DecidableEq

/-- The durable backend's state: the four tables touched by the core, plus
the autoincrement counter of `task_groups` (the source of `insertId`).
`task_configs` rows keep only the two fields the verified code reads
(`pm2Id` is UNIQUE per the schema). -/
structure DbState where
  groups : List TaskGroup
  configs : List TaskConfigRow
  metrics : List MetricRow
  logRows : List LogRow
  nextGroupId : Nat
deriving DecidableEq

/-- Milliseconds per day; `cutoffDate.setDate(cutoffDate.getDate() - n)` is
modelled as subtracting `n` whole days. -/
def msPerDay : Int := 86400000

/-- `getAllTaskGroups` (part_001, lines 108–113): empty when the backend is
unreachable, else all groups ordered by name. -/
def getAllTaskGroups (w : Option DbState) : List TaskGroup :=
  match w with
  | none => []
  | some db => db.groups.mergeSort fun a b => a.name ≤ b.name

/-- `getTaskGroupById` (part_001, lines 115–121): `undefined` when the
backend is unreachable, else the first row with the id. -/
def getTaskGroupById (w : Option DbState) (id : Nat) : Option TaskGroup :=
  match w with
  | none => none
  | some db => db.groups.find? fun g => g.id == id

/-- `createTaskGroup` (part_001, lines 123–134): throws when the backend is
unreachable; otherwise inserts the row (column defaults: color `'#00ffff'`
when omitted), re-reads it by `insertId`, and throws if the re-read fails. -/
def createTaskGroup (w : Option DbState) (group : InsertTaskGroup) :
    Except String (TaskGroup × DbState) :=
  match w with
  | none => .error "Database not available"
  | some db =>
    let insertedId := db.nextGroupId
    let row : TaskGroup :=
      { id := insertedId
        name := group.name
        description := group.description
        color := some (group.color.getD "#00ffff") }
    let db' : DbState :=
      { db with groups := db.groups ++ [row], nextGroupId := db.nextGroupId + 1 }
    match getTaskGroupById (some db') insertedId with
    | none => .error "Failed to retrieve inserted group"
    | some inserted => .ok (inserted, db')

/-- Applying `db.update(taskGroups).set(data)` to one row: each field present
in `data` overwrites the column. -/
def applyGroupUpdate (data : UpdateTaskGroup) (g : TaskGroup) : TaskGroup :=
  { g with
    name := data.name.getD g.name
    description := match data.description with
      | some d => some d
      | none => g.description
    color := match data.color with
      | some c => some c
      | none => g.color }

/-- `updateTaskGroup` (part_001, lines 136–142): returns `undefined` — with
no error — when the backend is unreachable; otherwise updates the matching
rows and re-reads the group. -/
def updateTaskGroup (w : Option DbState) (id : Nat) (data : UpdateTaskGroup) :
    Except String (Option TaskGroup × Option DbState) :=
  match w with
  | none => .ok (none, none)
  | some db =>
    let db' : DbState :=
      { db with groups := db.groups.map fun g => if g.id == id then applyGroupUpdate data g else g }
    .ok (getTaskGroupById (some db') id, some db')

/-- `deleteTaskGroup` (part_001, lines 144–152): returns silently — with no
error — when the backend is unreachable; otherwise nulls the `groupId` of
every config referencing the group, then deletes the group's rows. -/
def deleteTaskGroup (w : Option DbState) (id : Nat) : Except String (Option DbState) :=
  match w with
  | none => .ok none
  | some db =>
    .ok (some
      { db with
        configs := db.configs.map fun c =>
          if c.groupId == some id then { c with groupId := none } else c
        groups := db.groups.filter fun g => g.id != id })

/-- `getAllTaskConfigs` (part_001, lines 155–160): empty when the backend is
unreachable.  (The `orderBy(name)` clause is dropped: the modelled rows keep
no name column and no verified property depends on row order, `pm2Id` being
UNIQUE.) -/
def getAllTaskConfigs (w : Option DbState) : List TaskConfigRow :=
  match w with
  | none => []
  | some db => db.configs

/-- `getTaskConfigByPm2Id` (part_001, lines 162–168). -/
def getTaskConfigByPm2Id (w : Option DbState) (pm2Id : Nat) : Option TaskConfigRow :=
  match w with
  | none => none
  | some db => db.configs.find? fun c => c.pm2Id == pm2Id

/-- `updateTaskConfigGroup` (part_001, lines 197–202): returns silently —
with no error — when the backend is unreachable; otherwise sets the
`groupId` of the rows matching `pm2Id`. -/
def updateTaskConfigGroup (w : Option DbState) (pm2Id : Nat) (groupId : Option Nat) :
    Except String (Option DbState) :=
  match w with
  | none => .ok none
  | some db =>
    .ok (some
      { db with
        configs := db.configs.map fun c =>
          if c.pm2Id == pm2Id then { c with groupId := groupId } else c })

/-- `insertPerformanceMetric` (part_001, lines 205–210): a no-op when the
backend is unreachable; `timestamp` takes the column default `now()`. -/
def insertPerformanceMetric (w : Option DbState) (now : Int) (pm2Id : Nat)
    (cpu memory : Int) : Option DbState :=
  match w with
  | none => none
  | some db => some { db with metrics := db.metrics ++ [⟨pm2Id, cpu, memory, now⟩] }

/-- `getPerformanceMetrics` (part_001, lines 212–238): empty when the backend
is unreachable, else the rows of the process inside the optional time bounds,
newest first, truncated to `limit` (default 100). -/
def getPerformanceMetrics (w : Option DbState) (pm2Id : Nat)
    (startTime endTime : Option Int) (limit : Nat) : List MetricRow :=
  match w with
  | none => []
  | some db =>
    ((db.metrics.filter fun r =>
        r.pm2Id == pm2Id
          && (match startTime with | some t => decide (t ≤ r.timestamp) | none => true)
          && (match endTime with | some t => decide (r.timestamp ≤ t) | none => true)).mergeSort
      fun a b => b.timestamp ≤ a.timestamp).take limit

/-- `cleanOldPerformanceMetrics` (part_001, lines 240–248): a no-op when the
backend is unreachable; otherwise deletes every metric row whose timestamp is
less than or equal to `now` minus `daysToKeep` days (`lte(timestamp,
cutoffDate)`). -/
def cleanOldPerformanceMetrics (w : Option DbState) (now : Int) (daysToKeep : Int) :
    Option DbState :=
  match w with
  | none => none
  | some db =>
    let cutoffDate := now - daysToKeep * msPerDay
    some { db with metrics := db.metrics.filter fun r => !decide (r.timestamp ≤ cutoffDate) }

/-- `insertLogEntry` (part_001, lines 251–256): a no-op when the backend is
unreachable. -/
def insertLogEntry (w : Option DbState) (now : Int) (pm2Id : Nat) (type : LogKind)
    (content : String) : Option DbState :=
  match w with
  | none => none
  | some db => some { db with logRows := db.logRows ++ [⟨pm2Id, type, content, now⟩] }

/-- `getLogEntries` (part_001, lines 258–287): empty when the backend is
unreachable, else the rows of the process inside the optional time bounds
whose content contains the optional keyword, newest first, truncated to
`limit` (default 500). -/
def getLogEntries (w : Option DbState) (pm2Id : Nat) (startTime endTime : Option Int)
    (keyword : Option String) (limit : Nat) : List LogRow :=
  match w with
  | none => []
  | some db =>
    ((db.logRows.filter fun r =>
        r.pm2Id == pm2Id
          && (match startTime with | some t => decide (t ≤ r.timestamp) | none => true)
          && (match endTime with | some t => decide (r.timestamp ≤ t) | none => true)
          && (match keyword with
              | some k => containsSub k.toList r.content.toList
              | none => true)).mergeSort
      fun a b => b.timestamp ≤ a.timestamp).take limit

/-- `cleanOldLogEntries` (part_001, lines 289–297). -/
def cleanOldLogEntries (w : Option DbState) (now : Int) (daysToKeep : Int) :
    Option DbState :=
  match w with
  | none => none
  | some db =>
    let cutoffDate := now - daysToKeep * msPerDay
    some { db with logRows := db.logRows.filter fun r => !decide (r.timestamp ≤ cutoffDate) }

/-! ## Fallback store (src/server/localStorage.ts)

The single JSON document: every operation loads it, applies the change, and
rewrites it, so the embedding is a pure function from document to
document. -/

/-- A `LocalTaskGroup` of src/server/localStorage.ts.  The
`createdAt`/`updatedAt` ISO strings are carried as given by the `now`
argument. -/
structure LocalTaskGroup where
  id : Nat
  name : String
  description : Option String
  color : String
  createdAt : String
  updatedAt : String
deriving DecidableEq

/-- The whole persisted document: groups, configs and the monotone group-id
counter. -/
structure LocalStorageData where
  groups : List LocalTaskGroup
  configs : List TaskConfigRow
  nextGroupId : Nat
deriving DecidableEq

/-- `getAllTaskGroupsLocal` (localStorage.ts, lines 48–51): all groups sorted
by name (`localeCompare` modelled as lexicographic string order). -/
def getAllTaskGroupsLocal (data : LocalStorageData) : List LocalTaskGroup :=
  data.groups.mergeSort fun a b => a.name ≤ b.name

/-- `getTaskGroupByIdLocal` (localStorage.ts, lines 53–56). -/
def getTaskGroupByIdLocal (data : LocalStorageData) (id : Nat) : Option LocalTaskGroup :=
  data.groups.find? fun g => g.id == id

/-- `createTaskGroupLocal` (localStorage.ts, lines 58–75): id from the
counter (post-incremented), `description: group.description || null` and
`color: group.color || '#3B82F6'` — JS `||` sends the empty string to the
default as well. -/
def createTaskGroupLocal (data : LocalStorageData) (now : String)
    (group : InsertTaskGroup) : LocalTaskGroup × LocalStorageData :=
  let newGroup : LocalTaskGroup :=
    { id := data.nextGroupId
      name := group.name
      description := match group.description with
        | some d => if d == "" then none else some d
        | none => none
      color := match group.color with
        | some c => if c == "" then "#3B82F6" else c
        | none => "#3B82F6"
      createdAt := now
      updatedAt := now }
  (newGroup,
    { data with groups := data.groups ++ [newGroup], nextGroupId := data.nextGroupId + 1 })

/-- `deleteTaskGroupLocal` (localStorage.ts, lines 93–105): null the
`groupId` of every config referencing the group, then drop the group. -/
def deleteTaskGroupLocal (data : LocalStorageData) (id : Nat) : LocalStorageData :=
  { data with
    configs := data.configs.map fun c =>
      if c.groupId == some id then { c with groupId := none } else c
    groups := data.groups.filter fun g => g.id != id }

/-- `getAllTaskConfigsLocal` (localStorage.ts, lines 108–111). -/
def getAllTaskConfigsLocal (data : LocalStorageData) : List TaskConfigRow :=
  data.configs

/-- Mutating `configs[index].groupId` where `index` is the first index whose
`pm2Id` matches (`findIndex`). -/
def setGroupAtFirstMatch (pm2Id : Nat) (groupId : Option Nat) :
    List TaskConfigRow → List TaskConfigRow
  | [] => []
  | c :: cs =>
    if c.pm2Id == pm2Id then { c with groupId := groupId } :: cs
    else c :: setGroupAtFirstMatch pm2Id groupId cs

/-- `updateTaskConfigGroupLocal` (localStorage.ts, lines 118–129): update the
first matching config in place, or push a fresh `{pm2Id, groupId}` row —
note that `groupId` may be pushed as `null`. -/
def updateTaskConfigGroupLocal (data : LocalStorageData) (pm2Id : Nat)
    (groupId : Option Nat) : LocalStorageData :=
  if data.configs.any fun c => c.pm2Id == pm2Id then
    { data with configs := setGroupAtFirstMatch pm2Id groupId data.configs }
  else
    { data with configs := data.configs ++ [⟨pm2Id, groupId⟩] }

/-! ## Socket session machine (src/unnamed/part_003)

The per-connection handlers of `initializeSocketServer` mutate
`socket.data.monitorInterval` and `socket.data.pm2Bus` and create or cancel
timers and PM2 bus subscriptions.  The embedding tracks, besides the two
`socket.data` fields, the set of timer/bus handles that have been created
and not yet cancelled (`setInterval` handles live until `clearInterval`;
a bus lives until `close()`), with `nextHandle` as the handle supply.
Every handler is a total function of the state: the no-throw behaviour of a
handler is its totality here.  A disconnected socket delivers no further
client commands, hence the `connected` guard. -/

/-- The client commands and the disconnect event handled per socket. -/
inductive SocketEvent
  | monitorStart
  | monitorStop
  | logsStream
  | logsStop
  | disconnect
deriving DecidableEq

/-- Per-socket state. -/
structure SocketState where
  monitorInterval : Option Nat
  pm2Bus : Option Nat
  activeIntervals : List Nat
  activeBuses : List Nat
  nextHandle : Nat
  connected : Bool
deriving DecidableEq

/-- State of a socket right after the `connection` event. -/
def initialSocketState : SocketState :=
  { monitorInterval := none
    pm2Bus := none
    activeIntervals := []
    activeBuses := []
    nextHandle := 0
    connected := true }

/-- The five handlers of src/unnamed/part_003:

* `monitor:start` (lines 173–218): runs one cycle, calls `setInterval`, and
  assigns the new handle to `socket.data.monitorInterval` — without clearing
  any handle already stored there;
* `monitor:stop` (lines 220–226): if a handle is stored, `clearInterval` it
  and store `null`; otherwise do nothing;
* `logs:stream` (lines 229–339): after the historical replay, `launchBus`
  and assign the bus to `socket.data.pm2Bus` — without closing any bus
  already stored there;
* `logs:stop` (lines 341–347): if a bus is stored, `close()` it and store
  `null`; otherwise do nothing;
* `disconnect` (lines 356–366): `clearInterval` the stored handle if any and
  `close()` the stored bus if any. -/
def handleEvent (s : SocketState) (e : SocketEvent) : SocketState :=
  if s.connected = false then s
  else
    match e with
    | .monitorStart =>
      { s with
        monitorInterval := some s.nextHandle
        activeIntervals := s.nextHandle :: s.activeIntervals
        nextHandle := s.nextHandle + 1 }
    | .monitorStop =>
      match s.monitorInterval with
      | some h =>
        { s with monitorInterval := none, activeIntervals := s.activeIntervals.erase h }
      | none => s
    | .logsStream =>
      { s with
        pm2Bus := some s.nextHandle
        activeBuses := s.nextHandle :: s.activeBuses
        nextHandle := s.nextHandle + 1 }
    | .logsStop =>
      match s.pm2Bus with
      | some b => { s with pm2Bus := none, activeBuses := s.activeBuses.erase b }
      | none => s
    | .disconnect =>
      let s1 := match s.monitorInterval with
        | some h => { s with activeIntervals := s.activeIntervals.erase h }
        | none => s
      let s2 := match s1.pm2Bus with
        | some b => { s1 with activeBuses := s1.activeBuses.erase b }
        | none => s1
      { s2 with connected := false }

/-- Running a sequence of events against a socket state. -/
def runEvents (es : List SocketEvent) (s : SocketState) : SocketState :=
  es.foldl handleEvent s

/-- A session whose every live polling timer is the one stored in
`socket.data.monitorInterval`: no leaked interval.  This holds for every
session that has never received `monitor:start` (see the C6 theorem), and is
what the `monitor:stop` handler relies on to leave no timer running. -/
def monitorLeakFree (s : SocketState) : Prop :=
  s.activeIntervals = [] ∨ s.activeIntervals = s.monitorInterval.toList

/-! ## Claim-facing helpers and concrete fixtures -/

/-- Whether the underlying supervisor call for one id succeeded. -/
def callOk (outcome : Nat → Except String Unit) (i : Nat) : Bool :=
  match outcome i with
  | .ok _ => true
  | .error _ => false

/-- The per-id error message recorded for a failed supervisor call. -/
def callErrorMessage (outcome : Nat → Except String Unit) (i : Nat) : Option String :=
  match outcome i with
  | .ok _ => none
  | .error e => some ("Process " ++ toString i ++ ": " ++ e)

/-- Whether `batchTry` for one id succeeded (dispatch included). -/
def batchCallOk (outcome : Nat → Except String Unit) (operation : BatchOp) (i : Nat) : Bool :=
  match batchTry outcome operation i with
  | .ok _ => true
  | .error _ => false

/-- The error message `batchTry` yields for one id, already formatted. -/
def batchCallErr (outcome : Nat → Except String Unit) (operation : BatchOp) (i : Nat) :
    Option String :=
  match batchTry outcome operation i with
  | .ok _ => none
  | .error e => some ("Process " ++ toString i ++ ": " ++ e)

/-- Fixture snapshot for the C1 counterexample. -/
def procC1 : PM2ProcessInfo :=
  { pm_id := 1, name := "app", status := "online", cpu := 0, memory := 0 }

/-- Fixture supervisor outcome for the C7 witness: id 2 fails, others
succeed. -/
def outcomeC7 : Nat → Except String Unit := fun i =>
  if i == 2 then .error "process not found" else .ok ()

/-- Fixture clock for the C9 theorems (milliseconds). -/
def nowC9 : Int := 1700000000000

/-- A metric row whose timestamp is exactly the 7-day cutoff. -/
def cutoffRowC9 : MetricRow := ⟨1, 10, 256, nowC9 - 7 * msPerDay⟩

/-- Fixture database holding only the exact-cutoff row. -/
def dbC9 : DbState := ⟨[], [], [cutoffRowC9], [], 1⟩

/-- Fixture database for the C9 witness: one fresh row, one 8-day-old row. -/
def dbC9w : DbState :=
  ⟨[], [], [⟨1, 1, 1, nowC9⟩, ⟨2, 2, 2, nowC9 - 8 * msPerDay⟩], [], 1⟩

/-- Fixture database for the C8 witness: no groups, one config assigned to a
foreign group. -/
def dbC8 : DbState := ⟨[], [⟨3, some 99⟩], [], [], 5⟩

/-- Fixture fallback document for the C8 witness. -/
def dC8 : LocalStorageData := ⟨[], [⟨3, some 99⟩], 5⟩

/-- Fixture process for the C10 witness: its stderr log file lives under a
directory whose path contains "out". -/
def procC10 : PM2ProcessInfo :=
  { pm_id := 7, name := "worker", status := "online", cpu := 0, memory := 0
    pm_out_log_path := none
    pm_err_log_path := some "/logs/out/worker-err.log".toList }

/-- Fixture file contents for the C10 witness. -/
def contentsC10 : List Char → List String := fun _ => ["boom"]

/-! ## Theorems -/

/-- The nullish-coalescing chain of the merge agrees with the explicit
"first non-null value" case analysis. -/
lemma merge_nullish_eq (localConfigs dbConfigs : List TaskConfigRow) (pm2Id : Nat) :
    (match (localConfigs.find? fun c => c.pm2Id == pm2Id).bind TaskConfigRow.groupId with
     | some g => some g
     | none =>
       match (dbConfigs.find? fun c => c.pm2Id == pm2Id).bind TaskConfigRow.groupId with
       | some g => some g
       | none => none)
    = resolvedGroupId localConfigs dbConfigs pm2Id := by
  unfold resolvedGroupId
  cases hl : localConfigs.find? fun c => c.pm2Id == pm2Id with
  | none =>
    cases hd : dbConfigs.find? fun c => c.pm2Id == pm2Id with
    | none => simp [hl, hd]
    | some c =>
      obtain ⟨qid, gid⟩ := c
      cases gid <;> simp [hl, hd]
  | some c =>
    obtain ⟨pid, gid⟩ := c
    cases gid with
    | none =>
      cases hd : dbConfigs.find? fun c => c.pm2Id == pm2Id with
      | none => simp [hl, hd]
      | some c2 =>
        obtain ⟨qid, gid2⟩ := c2
        cases gid2 <;> simp [hl, hd]
    | some g => simp [hl]

/-- C1, amended: the merged view is exactly one entry per snapshot, in
snapshot order (so an id present only in a config list yields no entry), and
each entry's group id is the first non-null value among the Fallback Store
assignment and the Config Store assignment for that process id, else null —
a fallback assignment whose stored value is null does *not* shadow the
durable value. -/
theorem merge_groupId_resolution (processes : List PM2ProcessInfo)
    (dbConfigs localConfigs : List TaskConfigRow) :
    mergeProcessesWithGroups processes dbConfigs localConfigs
        = processes.map (fun p =>
            ({ proc := p
               groupId := resolvedGroupId localConfigs dbConfigs p.pm_id } : MergedProcess))
      ∧ (mergeProcessesWithGroups processes dbConfigs localConfigs).length
          = processes.length := by
  have hmap : mergeProcessesWithGroups processes dbConfigs localConfigs
      = processes.map (fun p =>
          ({ proc := p
             groupId := resolvedGroupId localConfigs dbConfigs p.pm_id } : MergedProcess)) := by
    unfold mergeProcessesWithGroups
    exact List.map_congr_left fun p _ =>
      congrArg (MergedProcess.mk p) (merge_nullish_eq localConfigs dbConfigs p.pm_id)
  exact ⟨hmap, by rw [hmap, List.length_map]⟩

/-- C1, counterexample: with a live snapshot for id 1, a Fallback Store
assignment `{pm2Id: 1, groupId: null}` and a Config Store assignment
`{pm2Id: 1, groupId: 5}`, the code resolves group id 5, while the claim —
Fallback Store value whenever a fallback assignment is present — predicts
null. -/
theorem merge_claim_counterexample :
    mergeProcessesWithGroups [procC1] [⟨1, some 5⟩] [⟨1, none⟩]
        = [{ proc := procC1, groupId := some 5 }]
      ∧ claimGroupId [⟨1, none⟩] [⟨1, some 5⟩] 1 = none
      ∧ (mergeProcessesWithGroups [procC1] [⟨1, some 5⟩] [⟨1, none⟩]).map
            MergedProcess.groupId
          ≠ [claimGroupId [⟨1, none⟩] [⟨1, some 5⟩] 1] := by
  refine ⟨rfl, rfl, ?_⟩
  decide

/-- C3, counterexample: with the durable backend unreachable (`getDb()`
null), the TaskGroup delete, the TaskGroup update and the group-assignment
update all return to the caller without any error, contradicting the claim
that every such mutation surfaces one. -/
theorem storeUnavailable_claim_counterexample :
    deleteTaskGroup none 2 = .ok none
      ∧ updateTaskGroup none 2 ⟨some "x", none, none⟩ = .ok (none, none)
      ∧ updateTaskConfigGroup none 3 (some 1) = .ok none := by
  exact ⟨rfl, rfl, rfl⟩

/-- C3, amended: when the durable backend is unreachable, every read returns
an empty result and metric/log inserts are no-ops; among the mutations only
TaskGroup creation throws, while TaskGroup update returns undefined and
TaskGroup delete and the group-assignment update return silently without
surfacing an error. -/
theorem storeUnavailable_behavior (id pm2Id : Nat) (gid : Option Nat)
    (g : InsertTaskGroup) (u : UpdateTaskGroup) (now cpu memory : Int)
    (st et : Option Int) (kw : Option String) (lim : Nat) (k : LogKind)
    (content : String) :
    getAllTaskGroups none = []
      ∧ getTaskGroupById none id = none
      ∧ getAllTaskConfigs none = []
      ∧ getTaskConfigByPm2Id none pm2Id = none
      ∧ getPerformanceMetrics none pm2Id st et lim = []
      ∧ getLogEntries none pm2Id st et kw lim = []
      ∧ insertPerformanceMetric none now pm2Id cpu memory = none
      ∧ insertLogEntry none now pm2Id k content = none
      ∧ createTaskGroup none g = .error "Database not available"
      ∧ updateTaskGroup none id u = .ok (none, none)
      ∧ deleteTaskGroup none id = .ok none
      ∧ updateTaskConfigGroup none pm2Id gid = .ok none := by
  exact ⟨rfl, rfl, rfl, rfl, rfl, rfl, rfl, rfl, rfl, rfl, rfl, rfl⟩

/-- The bounded sliding window keeps exactly the last `N` lines: pushing and
shifting once over the whole file equals dropping everything before the final
`N` elements. -/
lemma tailWindow_eq_drop (N : Nat) (ls : List String) :
    tailWindow N ls = ls.drop (ls.length - N) := by
  induction ls using List.reverseRecOn with
  | nil => simp [tailWindow]
  | append_singleton ls l ih =>
    have hfold : tailWindow N (ls ++ [l]) = tailWindowStep N (tailWindow N ls) l := by
      simp [tailWindow, List.foldl_append]
    rw [hfold, ih]
    unfold tailWindowStep
    by_cases hlen : ls.length < N
    · have h0 : ls.length - N = 0 := by omega
      have hcond : ¬ N < ((ls.drop (ls.length - N)) ++ [l]).length := by
        simp [h0]
        omega
      simp only [hcond, if_false]
      simp [h0, show ls.length + 1 - N = 0 from by omega]
    · have hdrop : (ls.drop (ls.length - N)).length = N := by
        simp
        omega
      have hcond : N < ((ls.drop (ls.length - N)) ++ [l]).length := by
        simp [hdrop]
      simp only [hcond, if_true]
      rw [← List.drop_append_of_le_length (by omega)]
      rw [List.tail_drop]
      congr 1
      simp
      omega

/-- C5: for a file of `K` lines and the window size 100, the historical
replay of that file emits exactly `min K 100` lines, in file order, and those
lines are exactly the last `min K 100` lines of the file. -/
theorem historical_replay_window (pm2Id : Nat) (logPath : List Char)
    (fileLines : List String) :
    (tailWindow 100 fileLines).length = min fileLines.length 100
      ∧ tailWindow 100 fileLines = fileLines.drop (fileLines.length - 100)
      ∧ (replayFile pm2Id logPath fileLines).map LogDataOut.content
          = fileLines.drop (fileLines.length - 100) := by
  have h := tailWindow_eq_drop 100 fileLines
  refine ⟨?_, h, ?_⟩
  · rw [h]
    simp
    omega
  · rw [replayFile, List.map_map]
    have hid : (LogDataOut.content ∘ fun line =>
        ({ pm2Id := pm2Id, type := inferKind logPath, content := line } : LogDataOut)) = id := rfl
    rw [hid, List.map_id, h]

/-- C10: every historical line is tagged (and persisted) with kind `stdout`
exactly when the path of the file it was read from contains the substring
"out", and `stderr` otherwise — the tag depends only on the path text, not on
whether the file was selected as the process's stdout or stderr log.  In
particular, for a request of kind `stderr` every line of the stderr log file
carries the tag inferred from that file's path, so a stderr file whose path
contains "out" anywhere produces lines tagged `stdout`. -/
theorem logKind_from_path (pm2Id : Nat) (p : PM2ProcessInfo) (ep : List Char)
    (contents : List Char → List String)
    (hep : p.pm_err_log_path = some ep) :
    (∀ logPath : List Char,
        inferKind logPath = .stdout ↔ containsSub outChars logPath = true)
      ∧ (∀ (q : Nat) (logPath : List Char) (fileLines : List String),
          ∀ e ∈ replayFile q logPath fileLines, e.type = inferKind logPath)
      ∧ ∀ e ∈ historicalReplay pm2Id .stderr p contents, e.type = inferKind ep := by
  refine ⟨?_, ?_, ?_⟩
  · intro logPath
    unfold inferKind
    by_cases h : containsSub outChars logPath <;> simp [h]
  · intro q logPath fileLines e he
    simp only [replayFile, List.mem_map] at he
    obtain ⟨line, _, rfl⟩ := he
    rfl
  · intro e he
    simp only [historicalReplay, selectLogPaths, hep, List.mem_flatMap] at he
    obtain ⟨logPath, hmem, hline⟩ := he
    simp at hmem
    subst hmem
    simp only [replayFile, List.mem_map] at hline
    obtain ⟨line, _, rfl⟩ := hline
    rfl

/-- C10 witness: a stderr log file at `/logs/out/worker-err.log` — a path
containing "out" — yields a historical line tagged `stdout`. -/
theorem logKind_from_path_witness :
    ((⟨7, LogKind.stdout, "boom"⟩ : LogDataOut)
        ∈ historicalReplay 7 .stderr procC10 contentsC10)
      ∧ (⟨7, LogKind.stdout, "boom"⟩ : LogDataOut).type
          = inferKind "/logs/out/worker-err.log".toList
      ∧ containsSub outChars "/logs/out/worker-err.log".toList = true := by
  have h := logKind_from_path 7 procC10 "/logs/out/worker-err.log".toList contentsC10 rfl
  have hmem : (⟨7, LogKind.stdout, "boom"⟩ : LogDataOut)
      ∈ historicalReplay 7 .stderr procC10 contentsC10 := by decide
  exact ⟨hmem, h.2.2 _ hmem, by decide⟩

/-- C9, counterexample: a metric row whose timestamp is exactly `now` minus
7 days is not older than the cutoff, yet the purge (which uses `lte`) deletes
it. -/
theorem retention_claim_counterexample :
    cleanOldPerformanceMetrics (some dbC9) nowC9 7 = some ⟨[], [], [], [], 1⟩
      ∧ ¬ cutoffRowC9.timestamp < nowC9 - 7 * msPerDay := by
  constructor
  · decide
  · decide

/-- C9, amended: the purge with a 7-day window deletes exactly the metric
rows whose timestamp is less than or equal to `now` minus 7 days, and retains
exactly those strictly newer than that cutoff. -/
theorem retention_purge_filter (db : DbState) (now : Int) :
    ∃ db', cleanOldPerformanceMetrics (some db) now 7 = some db'
      ∧ (∀ r ∈ db.metrics,
          (now - 7 * msPerDay < r.timestamp → r ∈ db'.metrics)
            ∧ (r.timestamp ≤ now - 7 * msPerDay → r ∉ db'.metrics))
      ∧ ∀ r ∈ db'.metrics, r ∈ db.metrics := by
  refine ⟨_, rfl, ?_, ?_⟩
  · intro r hr
    constructor
    · intro hlt
      simp only []
      exact List.mem_filter.mpr ⟨hr, by simp; omega⟩
    · intro hle hmem
      have := (List.mem_filter.mp hmem).2
      simp at this
      omega
  · intro r hr
    exact (List.mem_filter.mp hr).1

/-- C9 witness: with one fresh row and one 8-day-old row, the purge keeps the
fresh row and drops the old one. -/
theorem retention_purge_filter_witness :
    ∃ db', cleanOldPerformanceMetrics (some dbC9w) nowC9 7 = some db'
      ∧ (⟨1, 1, 1, nowC9⟩ : MetricRow) ∈ db'.metrics
      ∧ (⟨2, 2, 2, nowC9 - 8 * msPerDay⟩ : MetricRow) ∉ db'.metrics := by
  obtain ⟨db', heq, hboth, _⟩ := retention_purge_filter dbC9w nowC9
  refine ⟨db', heq, ?_, ?_⟩
  · exact (hboth _ (by decide)).1 (by decide)
  · exact (hboth _ (by decide)).2 (by decide)

/-- C2: a second `monitor:start` does not cancel the old polling handle —
it overwrites `socket.data.monitorInterval` with the new one, leaving two
intervals live for the same session at once (the old one no longer reachable
through the session's state, hence never clearable). -/
theorem monitorStart_leaks_previous_interval :
    (runEvents [.monitorStart, .monitorStart] initialSocketState).activeIntervals.length = 2
      ∧ (runEvents [.monitorStart, .monitorStart] initialSocketState).monitorInterval
          = some 1
      ∧ 0 ∈ (runEvents [.monitorStart, .monitorStart] initialSocketState).activeIntervals := by
  exact ⟨rfl, rfl, by decide⟩

/-- C4: after `monitor:start`, `monitor:start`, `disconnect`, the disconnect
cleanup clears only the handle stored in `socket.data.monitorInterval` (the
second timer); the first, overwritten timer is still live, so its ticks keep
emitting `processes:update` and persisting metrics for a disconnected
session. -/
theorem disconnect_leaked_interval_survives :
    (runEvents [.monitorStart, .monitorStart, .disconnect] initialSocketState).connected
        = false
      ∧ (runEvents [.monitorStart, .monitorStart, .disconnect]
            initialSocketState).activeIntervals = [0] := by
  exact ⟨rfl, by decide⟩

/-- Every handler except `monitor:start` preserves the no-leaked-interval
invariant. -/
lemma monitorLeakFree_handleEvent (s : SocketState) (e : SocketEvent)
    (h : monitorLeakFree s) (he : e ≠ .monitorStart) :
    monitorLeakFree (handleEvent s e) := by
  unfold monitorLeakFree at h ⊢
  unfold handleEvent
  by_cases hc : s.connected = false
  · simp [hc]
    exact h
  · simp only [hc, if_false]
    cases e with
    | monitorStart => exact absurd rfl he
    | monitorStop =>
      cases hmi : s.monitorInterval with
      | none => exact h
      | some t =>
        rcases h with h | h
        · left
          simp [h]
        · left
          rw [h, hmi]
          simp
    | logsStream =>
      cases hb : s.pm2Bus <;> exact h
    | logsStop =>
      cases hb : s.pm2Bus with
      | none => exact h
      | some b => simp [hb]; exact h
    | disconnect =>
      left
      rcases h with h | h
      · cases hmi : s.monitorInterval <;> cases hb : s.pm2Bus <;>
          simp [hmi, hb, h]
      · cases hmi : s.monitorInterval with
        | none =>
          rw [hmi] at h
          simp at h
          cases hb : s.pm2Bus <;> simp [hmi, hb, h]
        | some t =>
          rw [hmi] at h
          simp at h
          cases hb : s.pm2Bus <;> simp [hmi, hb, h]

/-- Along any event sequence with no `monitor:start`, the session stays free
of leaked polling intervals. -/
lemma monitorLeakFree_runEvents (es : List SocketEvent) :
    ∀ s : SocketState, monitorLeakFree s → SocketEvent.monitorStart ∉ es →
      monitorLeakFree (runEvents es s) := by
  induction es with
  | nil =>
    intro s h _
    exact h
  | cons e es ih =>
    intro s h hne
    have hstep : monitorLeakFree (handleEvent s e) :=
      monitorLeakFree_handleEvent s e h fun heq => hne (heq ▸ List.mem_cons_self e es)
    have htail : SocketEvent.monitorStart ∉ es := fun hmem =>
      hne (List.mem_cons_of_mem e hmem)
    simpa [runEvents, List.foldl_cons] using ih (handleEvent s e) hstep htail

/-- C6: on a session with no leaked polling timer — which every session that
never received `monitor:start` is, per the last conjunct — `monitor:stop`
leaves no active polling timer and a cleared handle, and a second
`monitor:stop` is a no-op returning the identical state.  The handler is a
total function of the state (its `clearInterval` is guarded by the presence
check), which is the model's no-throw property. -/
theorem stopMonitoring_idempotent (s : SocketState) (hc : s.connected = true)
    (h : monitorLeakFree s) :
    handleEvent (handleEvent s .monitorStop) .monitorStop = handleEvent s .monitorStop
      ∧ (handleEvent s .monitorStop).activeIntervals = []
      ∧ (handleEvent s .monitorStop).monitorInterval = none
      ∧ ∀ es : List SocketEvent, SocketEvent.monitorStart ∉ es →
          monitorLeakFree (runEvents es initialSocketState) := by
  have hstop : (handleEvent s .monitorStop).activeIntervals = []
      ∧ (handleEvent s .monitorStop).monitorInterval = none
      ∧ (handleEvent s .monitorStop).connected = true := by
    unfold handleEvent
    simp only [hc]
    cases hmi : s.monitorInterval with
    | none =>
      rcases h with h | h
      · simp [h, hc, hmi]
      · rw [hmi] at h
        simp at h
        simp [h, hc, hmi]
    | some t =>
      rcases h with h | h
      · simp [h, hc]
      · rw [h, hmi]
        simp [hc]
  have hnoop : ∀ t : SocketState, t.monitorInterval = none →
      handleEvent t .monitorStop = t := by
    intro t ht
    unfold handleEvent
    by_cases htc : t.connected = false
    · simp [htc]
    · simp [htc, ht]
  refine ⟨hnoop _ hstop.2.1, hstop.1, hstop.2.1, ?_⟩
  intro es hes
  exact monitorLeakFree_runEvents es initialSocketState (Or.inl rfl) hes

/-- C6 witness: the fresh session (never started monitoring) satisfies the
invariant; stopping leaves no active timer, and stopping twice equals
stopping once. -/
theorem stopMonitoring_idempotent_witness :
    initialSocketState.connected = true
      ∧ monitorLeakFree initialSocketState
      ∧ (handleEvent initialSocketState .monitorStop).activeIntervals = []
      ∧ handleEvent (handleEvent initialSocketState .monitorStop) .monitorStop
          = handleEvent initialSocketState .monitorStop := by
  have h := stopMonitoring_idempotent initialSocketState rfl (Or.inl rfl)
  exact ⟨rfl, Or.inl rfl, h.2.1, h.1⟩

/-- Unfolding the batch loop: starting from any tally, the loop adds one
success per ok id, one failure per failing id, and appends the formatted
message of every failing id in order. -/
lemma batch_foldl (outcome : Nat → Except String Unit) (operation : BatchOp) :
    ∀ (ids : List Nat) (r : BatchResult),
      ids.foldl (batchStep outcome operation) r
        = ⟨r.success + ids.countP (batchCallOk outcome operation),
           r.failed + ids.countP (fun i => !batchCallOk outcome operation i),
           r.errors ++ ids.filterMap (batchCallErr outcome operation)⟩ := by
  intro ids
  induction ids with
  | nil =>
    intro r
    simp
  | cons i ids ih =>
    intro r
    rw [List.foldl_cons, ih]
    cases hb : batchTry outcome operation i with
    | ok u =>
      have hok : batchCallOk outcome operation i = true := by
        simp [batchCallOk, hb]
      have herr : batchCallErr outcome operation i = none := by
        simp [batchCallErr, hb]
      simp [batchStep, hb, List.countP_cons, List.filterMap_cons, hok, herr]
      omega
    | error e =>
      have hok : batchCallOk outcome operation i = false := by
        simp [batchCallOk, hb]
      have herr : batchCallErr outcome operation i
          = some ("Process " ++ toString i ++ ": " ++ e) := by
        simp [batchCallErr, hb]
      simp [batchStep, hb, List.countP_cons, List.filterMap_cons, hok, herr]
      omega

/-- For the three supported operations the per-id attempt is exactly the
underlying supervisor call. -/
lemma batchTry_eq_outcome (outcome : Nat → Except String Unit) (operation : BatchOp)
    (hop : operation ≠ .start) : ∀ i, batchTry outcome operation i = outcome i := by
  intro i
  cases operation with
  | start => exact absurd rfl hop
  | stop => rfl
  | restart => rfl
  | delete => rfl

/-- C7: for every id list and every pattern of per-id success or failure of
the underlying supervisor calls (any supported operation), the batch
processes every id — `success + failed = length` — with `success` counting
the ids whose call succeeded, `failed` counting the ids whose call threw,
and `errors` holding exactly one `Process <id>: <reason>` message per failed
id, in order; the two tallies are invariant under reordering of the id
list. -/
theorem batchOperation_tally (ids ids' : List Nat) (operation : BatchOp)
    (outcome : Nat → Except String Unit) (hop : operation ≠ .start)
    (hperm : ids'.Perm ids) :
    (batchOperation ids operation outcome).success = ids.countP (callOk outcome)
      ∧ (batchOperation ids operation outcome).failed
          = ids.countP (fun i => !callOk outcome i)
      ∧ (batchOperation ids operation outcome).success
            + (batchOperation ids operation outcome).failed = ids.length
      ∧ (batchOperation ids operation outcome).errors
          = ids.filterMap (callErrorMessage outcome)
      ∧ (batchOperation ids' operation outcome).success
          = (batchOperation ids operation outcome).success
      ∧ (batchOperation ids' operation outcome).failed
          = (batchOperation ids operation outcome).failed := by
  have hok : batchCallOk outcome operation = callOk outcome := by
    funext i
    simp [batchCallOk, callOk, batchTry_eq_outcome outcome operation hop]
  have herr : batchCallErr outcome operation = callErrorMessage outcome := by
    funext i
    simp [batchCallErr, callErrorMessage, batchTry_eq_outcome outcome operation hop]
  have h1 := batch_foldl outcome operation ids ⟨0, 0, []⟩
  have h2 := batch_foldl outcome operation ids' ⟨0, 0, []⟩
  rw [hok, herr] at h1 h2
  have hcount : ∀ l : List Nat,
      l.countP (callOk outcome) + l.countP (fun i => !callOk outcome i) = l.length := by
    intro l
    induction l with
    | nil => simp
    | cons i l ih =>
      by_cases hci : callOk outcome i <;> simp [List.countP_cons, hci] <;> omega
  refine ⟨?_, ?_, ?_, ?_, ?_, ?_⟩
  · rw [batchOperation, h1]
    simp
  · rw [batchOperation, h1]
    simp
  · rw [batchOperation, h1]
    simpa using hcount ids
  · rw [batchOperation, h1]
    simp
  · rw [batchOperation, batchOperation, h1, h2]
    simpa using hperm.countP_eq (callOk outcome)
  · rw [batchOperation, batchOperation, h1, h2]
    simpa using hperm.countP_eq fun i => !callOk outcome i

/-- C7 witness: over ids `[1,2,3]` with only id 2 failing, the batch reports
two successes, one failure and the single message `Process 2: <reason>`, and
the reordered request `[2,1,3]` yields the same tallies. -/
theorem batchOperation_tally_witness :
    (batchOperation [1, 2, 3] .stop outcomeC7).success = 2
      ∧ (batchOperation [1, 2, 3] .stop outcomeC7).failed = 1
      ∧ (batchOperation [1, 2, 3] .stop outcomeC7).errors
          = ["Process 2: process not found"]
      ∧ (batchOperation [2, 1, 3] .stop outcomeC7).success = 2
      ∧ (batchOperation [2, 1, 3] .stop outcomeC7).failed = 1 := by
  obtain ⟨hs, hf, _, he, hps, hpf⟩ :=
    batchOperation_tally [1, 2, 3] [2, 1, 3] .stop outcomeC7 (by decide) (by decide)
  refine ⟨?_, ?_, ?_, ?_, ?_⟩
  · rw [hs]; decide
  · rw [hf]; decide
  · rw [he]; decide
  · rw [hps, hs]; decide
  · rw [hpf, hf]; decide

/-- C8: from a store with no groups (configs arbitrary), creating a
TaskGroup named "web" with color "#3B82F6" and listing returns exactly that
one group under a freshly generated id; deleting it empties the listing and
nulls the `groupId` of every assignment that referenced it — in the durable
store and in the fallback store alike. -/
theorem taskGroup_roundtrip (db : DbState) (d : LocalStorageData) (now : String)
    (hdb : db.groups = []) (hd : d.groups = []) :
    (∃ (g : TaskGroup) (db₁ : DbState),
        createTaskGroup (some db) ⟨"web", none, some "#3B82F6"⟩ = .ok (g, db₁)
          ∧ g.name = "web" ∧ g.color = some "#3B82F6" ∧ g.id = db.nextGroupId
          ∧ getAllTaskGroups (some db₁) = [g]
          ∧ ∃ db₂ : DbState,
              deleteTaskGroup (some db₁) g.id = .ok (some db₂)
                ∧ getAllTaskGroups (some db₂) = []
                ∧ ∀ c ∈ db₂.configs, c.groupId ≠ some g.id)
      ∧ ∃ (lg : LocalTaskGroup) (d₁ : LocalStorageData),
          createTaskGroupLocal d now ⟨"web", none, some "#3B82F6"⟩ = (lg, d₁)
            ∧ lg.name = "web" ∧ lg.color = "#3B82F6" ∧ lg.id = d.nextGroupId
            ∧ getAllTaskGroupsLocal d₁ = [lg]
            ∧ getAllTaskGroupsLocal (deleteTaskGroupLocal d₁ lg.id) = []
            ∧ ∀ c ∈ (deleteTaskGroupLocal d₁ lg.id).configs, c.groupId ≠ some lg.id := by
  obtain ⟨groups, configs, metrics, logRows, n⟩ := db
  obtain ⟨lgroups, lconfigs, ln⟩ := d
  simp only at hdb hd
  subst hdb
  subst hd
  constructor
  · refine ⟨⟨n, "web", none, some "#3B82F6"⟩,
      ⟨[⟨n, "web", none, some "#3B82F6"⟩], configs, metrics, logRows, n + 1⟩,
      ?_, rfl, rfl, rfl, ?_, ?_⟩
    · simp [createTaskGroup, getTaskGroupById]
    · simp [getAllTaskGroups]
    · refine ⟨⟨[], configs.map fun c =>
          if c.groupId == some n then { c with groupId := none } else c,
          metrics, logRows, n + 1⟩, ?_, ?_, ?_⟩
      · simp [deleteTaskGroup]
      · simp [getAllTaskGroups]
      · intro c hc
        simp only [List.mem_map] at hc
        obtain ⟨c0, _, rfl⟩ := hc
        by_cases hg : c0.groupId == some n
        · simp [hg]
        · simp only [hg, if_false]
          simpa using hg
  · refine ⟨⟨ln, "web", none, "#3B82F6", now, now⟩,
      ⟨[⟨ln, "web", none, "#3B82F6", now, now⟩], lconfigs, ln + 1⟩,
      rfl, rfl, rfl, rfl, ?_, ?_, ?_⟩
    · simp [getAllTaskGroupsLocal]
    · simp [getAllTaskGroupsLocal, deleteTaskGroupLocal]
    · intro c hc
      simp only [deleteTaskGroupLocal, List.mem_map] at hc
      obtain ⟨c0, _, rfl⟩ := hc
      by_cases hg : c0.groupId == some ln
      · simp [hg]
      · simp only [hg, if_false]
        simpa using hg

/-- C8 witness: the round trip evaluated on a concrete pair of stores each
holding one config assigned to a foreign group. -/
theorem taskGroup_roundtrip_witness :
    ∃ (g : TaskGroup) (db₁ : DbState),
      createTaskGroup (some dbC8) ⟨"web", none, some "#3B82F6"⟩ = .ok (g, db₁)
        ∧ g.name = "web" ∧ g.color = some "#3B82F6"
        ∧ getAllTaskGroups (some db₁) = [g] := by
  obtain ⟨⟨g, db₁, hcreate, hname, hcolor, _, hlist, _⟩, _⟩ :=
    taskGroup_roundtrip dbC8 dC8 "2026-01-01T00:00:00.000Z" rfl rfl
  exact ⟨g, db₁, hcreate, hname, hcolor, hlist⟩

end Pm2Manager
